import Mathlib

/-
Verification development for the CVE classification orchestrator.

The embedding translates src/llm_classifier.py and src/llm_start.py into
executable Lean definitions. External effects are modelled explicitly:

  * the inference endpoint is an oracle Nat -> HttpResp, consulted once per
    HTTP POST, indexed by the number of POSTs already made;
  * python exceptions are values of PyExn inside Except;
  * python dicts are insertion ordered association lists over String keys;
  * json.loads is modelled by a fueled recursive descent parser json_loads
    over the fragment of JSON the system exchanges (null, booleans, integers,
    strings with simple escapes, arrays, objects); floats and unicode escape
    sequences are outside the modelled fragment;
  * wall clock time is an input parameter (elapsed), and sleeps are counted
    rather than performed.
-/

/-- Model of a parsed JSON value, as produced by json.loads. -/
inductive Json where
  | null : Json
  | b (x : Bool) : Json
  | i (n : Int) : Json
  | s (t : String) : Json
  | arr (xs : List Json) : Json
  | obj (kvs : List (String × Json)) : Json

/-- Python truthiness of a JSON derived value (bool(v)). -/
def truthy : Json → Bool
  | Json.null => false
  | Json.b x => x
  | Json.i n => n != 0
  | Json.s t => t != ""
  | Json.arr xs => !xs.isEmpty
  | Json.obj kvs => !kvs.isEmpty

/-- Python exceptions that the modelled code can raise. -/
inductive PyExn where
  | attributeError : PyExn
  | typeError : PyExn
  | indexError : PyExn
  | keyError : PyExn
deriving DecidableEq

/-- Association list lookup, first matching key (python dict lookup). -/
def jget? (kvs : List (String × Json)) (k : String) : Option Json :=
  match kvs with
  | [] => none
  | (k', v) :: rest => if k' = k then some v else jget? rest k

/-- Python dict item assignment d[k] = v: overwrite in place, else append. -/
def dictSet (d : List (String × Json)) (k : String) (v : Json) : List (String × Json) :=
  match d with
  | [] => [(k, v)]
  | (k', v') :: rest => if k' = k then (k, v) :: rest else (k', v') :: dictSet rest k v

/-- Truthiness of d.get(k) results (None when absent). -/
def truthyOpt : Option Json → Bool
  | none => false
  | some v => truthy v

/-- Model of d.get(k, default): AttributeError unless d is a dict. -/
def pyGetD : Json → String → Json → Except PyExn Json
  | Json.obj kvs, k, dflt => Except.ok ((jget? kvs k).getD dflt)
  | _, _, _ => Except.error PyExn.attributeError

/-- Model of v[0] subscription on a JSON derived python value. -/
def pyIndex0 : Json → Except PyExn Json
  | Json.arr (x :: _) => Except.ok x
  | Json.arr [] => Except.error PyExn.indexError
  | Json.s t =>
    match t.toList with
    | c :: _ => Except.ok (Json.s (String.mk [c]))
    | [] => Except.error PyExn.indexError
  | Json.obj _ => Except.error PyExn.keyError
  | _ => Except.error PyExn.typeError

/-- Whitespace accepted by the JSON grammar and by str.strip. -/
def isWs (c : Char) : Bool := c = ' ' || c = '\t' || c = '\n' || c = '\r'

/-- Drop leading JSON whitespace. -/
def skipWs (cs : List Char) : List Char := cs.dropWhile isWs

/-- Model of str.strip(): drop whitespace at both ends. -/
def pyStrip (t : String) : String :=
  String.mk (((t.toList.dropWhile isWs).reverse.dropWhile isWs).reverse)

/-- Model of the python substring test (needle in hay). -/
def listHasInfix (needle : List Char) : List Char → Bool
  | [] => needle.isEmpty
  | c :: t => needle.isPrefixOf (c :: t) || listHasInfix needle t

/-- String form of the substring test used on template field names. -/
def strContains (hay needle : String) : Bool := listHasInfix needle.toList hay.toList

/-- Decoded escape characters of the modelled JSON string fragment: the
self quoting trio passes through, the letter escapes decode to control
characters, anything else (such as unicode escapes) is outside the
fragment. -/
def escChar (e : Char) : Option Char :=
  if e = 'n' then some '\n'
  else if e = 't' then some '\t'
  else if e = 'r' then some '\r'
  else if e = '"' || e = '\\' || e = '/' then some e
  else none

/-- Parse the body of a JSON string literal after the opening quote. -/
def parseStrChars : Nat → List Char → Option (List Char × List Char)
  | 0, _ => none
  | _, [] => none
  | fuel + 1, c :: cs =>
    if c = '"' then some ([], cs)
    else if c = '\\' then
      match cs with
      | [] => none
      | e :: cs2 =>
        match escChar e with
        | none => none
        | some r => (parseStrChars fuel cs2).map (fun p => (r :: p.1, p.2))
    else (parseStrChars fuel cs).map (fun p => (c :: p.1, p.2))

/-- Numeric value of a digit run, accumulated left to right. -/
def digitsVal : Nat → List Char → Nat
  | acc, [] => acc
  | acc, d :: ds => digitsVal (acc * 10 + (d.toNat - 48)) ds

/-- Parse an integer literal (the modelled numeric fragment of JSON). -/
def parseNum (cs : List Char) : Option (Json × List Char) :=
  match cs with
  | '-' :: rest =>
    match rest.span Char.isDigit with
    | ([], _) => none
    | (ds, tail) => some (Json.i (-(digitsVal 0 ds : Int)), tail)
  | _ =>
    match cs.span Char.isDigit with
    | ([], _) => none
    | (ds, tail) => some (Json.i (digitsVal 0 ds : Int), tail)

/-- Collapse duplicate object keys the way python dict construction does. -/
def dedupPairs (ps : List (String × Json)) : List (String × Json) :=
  ps.foldl (fun acc p => dictSet acc p.1 p.2) []

mutual

/-- Parse one JSON value (fueled recursive descent, modelling json.loads). -/
def parseVal : Nat → List Char → Option (Json × List Char)
  | 0, _ => none
  | fuel + 1, cs0 =>
    match skipWs cs0 with
    | [] => none
    | 't' :: 'r' :: 'u' :: 'e' :: rest => some (Json.b true, rest)
    | 'f' :: 'a' :: 'l' :: 's' :: 'e' :: rest => some (Json.b false, rest)
    | 'n' :: 'u' :: 'l' :: 'l' :: rest => some (Json.null, rest)
    | '"' :: rest => (parseStrChars (fuel + 1) rest).map (fun p => (Json.s (String.mk p.1), p.2))
    | '\x7b' :: rest => parseObjBody fuel rest
    | '[' :: rest => parseArrBody fuel rest
    | c :: rest =>
      if c = '-' || c.isDigit then parseNum (c :: rest) else none

/-- Parse an object body after the opening brace. -/
def parseObjBody : Nat → List Char → Option (Json × List Char)
  | 0, _ => none
  | fuel + 1, cs =>
    match skipWs cs with
    | [] => none
    | '\x7d' :: rest => some (Json.obj [], rest)
    | other =>
      (parseMembers fuel other).map (fun p => (Json.obj (dedupPairs p.1), p.2))

/-- Parse one or more comma separated key value members, then the brace. -/
def parseMembers : Nat → List Char → Option (List (String × Json) × List Char)
  | 0, _ => none
  | fuel + 1, cs =>
    match skipWs cs with
    | '"' :: rest =>
      match parseStrChars (fuel + 1) rest with
      | none => none
      | some (key, cs2) =>
        match skipWs cs2 with
        | ':' :: cs3 =>
          match parseVal fuel cs3 with
          | none => none
          | some (v, cs4) =>
            match skipWs cs4 with
            | ',' :: cs5 =>
              (parseMembers fuel cs5).map (fun p => ((String.mk key, v) :: p.1, p.2))
            | '\x7d' :: cs5 => some ([(String.mk key, v)], cs5)
            | _ => none
        | _ => none
    | _ => none

/-- Parse an array body after the opening bracket. -/
def parseArrBody : Nat → List Char → Option (Json × List Char)
  | 0, _ => none
  | fuel + 1, cs =>
    match skipWs cs with
    | [] => none
    | ']' :: rest => some (Json.arr [], rest)
    | other => (parseElems fuel other).map (fun p => (Json.arr p.1, p.2))

/-- Parse one or more comma separated array elements, then the bracket. -/
def parseElems : Nat → List Char → Option (List Json × List Char)
  | 0, _ => none
  | fuel + 1, cs =>
    match parseVal fuel cs with
    | none => none
    | some (v, cs2) =>
      match skipWs cs2 with
      | ',' :: cs3 => (parseElems fuel cs3).map (fun p => (v :: p.1, p.2))
      | ']' :: cs3 => some ([v], cs3)
      | _ => none

end

/-- Model of json.loads on the exchanged fragment: parse one document and
require that only whitespace remains (python raises on extra data). -/
def json_loads (cs : List Char) : Option Json :=
  match parseVal (2 * cs.length + 4) cs with
  | some (v, rest) => if skipWs rest = [] then some v else none
  | none => none

/-- Errors raised by safe_json_loads (the ValueError messages of the source,
with the snippet of the parse failure message kept as data). -/
inductive JErr where
  | emptyInput : JErr
  | parseFailed (snippet : String) : JErr
deriving DecidableEq

/-- Index of the first occurrence of a character. -/
def firstIdxOf (c : Char) : List Char → Option Nat
  | [] => none
  | x :: xs => if x = c then some 0 else (firstIdxOf c xs).map (· + 1)

/-- Span matched by the greedy regex on braces: from the first opening brace
to the last closing brace, provided the first strictly precedes the last. -/
def braceSpanList (cs : List Char) : Option (List Char) :=
  match firstIdxOf '\x7b' cs, firstIdxOf '\x7d' cs.reverse with
  | some iFst, some jr =>
    let jLst := cs.length - 1 - jr
    if iFst < jLst then some ((cs.drop iFst).take (jLst - iFst + 1)) else none
  | _, _ => none

/-- Model of safe_json_loads from src/llm_classifier.py lines 8 to 18:
fail on the empty string, try the greedy brace span when one exists,
otherwise try the whole string, converting parse failures to JErr. -/
def safe_json_loads (t : String) : Except JErr Json :=
  if t.toList = [] then Except.error JErr.emptyInput
  else
    match braceSpanList t.toList with
    | some span =>
      match json_loads span with
      | some v => Except.ok v
      | none => Except.error (JErr.parseFailed (String.mk (t.toList.take 200)))
    | none =>
      match json_loads t.toList with
      | some v => Except.ok v
      | none => Except.error (JErr.parseFailed (String.mk (t.toList.take 200)))

/-- Outcome of one HTTP POST against the inference endpoint: a network level
exception, or a reply with a status code and a body that either decoded as
JSON or raised inside r.json(). -/
inductive HttpResp where
  | netFail : HttpResp
  | reply (status : Int) (body : Option Json) : HttpResp

/-- Extraction of the assistant message content from a decoded reply body,
data.get with defaults chained through choices, index zero and message. -/
def contentOf (data : Json) : Except PyExn Json := do
  let choices ← pyGetD data "choices" (Json.arr [Json.obj []])
  let first ← pyIndex0 choices
  let msg ← pyGetD first "message" (Json.obj [])
  pyGetD msg "content" (Json.s "")

/-- One attempt of the transport loop: some stripped content on the return
path of the source, none when the attempt falls through to the sleep (any
caught exception, a non 200 status, a body that fails to decode, falsy
content, or content whose strip call raises because it is not a string). -/
def attemptOnce : HttpResp → Option String
  | HttpResp.netFail => none
  | HttpResp.reply status body =>
    if status ≠ 200 then none
    else
      match body with
      | none => none
      | some data =>
        match contentOf data with
        | Except.error _ => none
        | Except.ok content =>
          if truthy content then
            match content with
            | Json.s str => some (pyStrip str)
            | _ => none
          else none

/-- Observable outcome of one _query call: the returned content, the oracle
index after the call (posts made so far), and how many sleeps it performed. -/
structure QueryOut where
  content : Option String
  nextIdx : Nat
  sleeps : Nat
deriving DecidableEq

/-- Bounded attempt loop of _query over the remaining attempt count. -/
def queryAux (oracle : Nat → HttpResp) : Nat → Nat → Nat → QueryOut
  | idx, 0, sl => ⟨none, idx, sl⟩
  | idx, rem + 1, sl =>
    match attemptOnce (oracle idx) with
    | some c => ⟨some c, idx + 1, sl⟩
    | none => queryAux oracle (idx + 1) rem (sl + 1)

/-- Model of _query from src/llm_classifier.py lines 20 to 45: up to attempts
sequential POSTs, one sleep of delay seconds after every attempt that does
not return, none when all attempts are exhausted. The delay and timeout
arguments do not influence the returned value; sleeps counts the calls to
time.sleep(delay). -/
def _query (oracle : Nat → HttpResp) (idx attempts delay timeout : Nat) : QueryOut :=
  queryAux oracle idx attempts 0

/-- Observable outcome of the outer attempt loop of classify: the extracted
JSON document when one attempt parsed, the attempts counter, and the oracle
index after the loop. -/
structure LoopOut where
  data : Option Json
  used : Nat
  nextIdx : Nat

/-- Outer attempt loop of classify over the remaining attempt count: each
iteration calls _query once, skips falsy raw text, otherwise hands the raw
text to safe_json_loads and stops on extraction success. -/
def classifyAux (oracle : Nat → HttpResp) (innerAttempts delay timeout : Nat) :
    Nat → Nat → Nat → LoopOut
  | idx, 0, used => ⟨none, used, idx⟩
  | idx, rem + 1, used =>
    match (_query oracle idx innerAttempts delay timeout).content with
    | none =>
      classifyAux oracle innerAttempts delay timeout
        (_query oracle idx innerAttempts delay timeout).nextIdx rem (used + 1)
    | some raw =>
      if raw = "" then
        classifyAux oracle innerAttempts delay timeout
          (_query oracle idx innerAttempts delay timeout).nextIdx rem (used + 1)
      else
        match safe_json_loads raw with
        | Except.ok d => ⟨some d, used + 1, (_query oracle idx innerAttempts delay timeout).nextIdx⟩
        | Except.error _ =>
          classifyAux oracle innerAttempts delay timeout
            (_query oracle idx innerAttempts delay timeout).nextIdx rem (used + 1)

/-- Configuration state of a CVEClassifier instance after __init__ (the
role and template files are read at startup; FatalConfigError aborts before
any classification, so classify only ever runs with loaded values). -/
structure Classifier where
  model : String
  url : String
  attempts : Nat
  retry_delay : Nat
  timeout : Nat
  system_prompt : String
  output_map : List (String × String)

/-- The outer loop of classify as run by one classify call: the transport
budget handed to _query is the same attempts field that bounds the outer
loop (source line 106). -/
def classifyRun (cfg : Classifier) (oracle : Nat → HttpResp) : LoopOut :=
  classifyAux oracle cfg.attempts cfg.retry_delay cfg.timeout 0 cfg.attempts 0

/-- Identifier derivation of classify lines 79 to 84: a chained .get walk
into the mitre document with dict defaults, falling back to the caller
supplied id; AttributeError propagates when an intermediate value is not a
dict. -/
def deriveCveId (cve_data : List (String × Json)) (fallback : String) : Except PyExn Json := do
  let m := (jget? cve_data "mitre").getD (Json.obj [])
  let md ← pyGetD m "cveMetadata" (Json.obj [])
  let cid ← pyGetD md "cveId" Json.null
  pure (if truthy cid then cid else Json.s fallback)

/-- Default applied per template field when the model omits the mapped key:
empty list for field names containing Vendors or Products, null otherwise. -/
def defaultFor (finalKey : String) : Json :=
  if strContains finalKey "Vendors" || strContains finalKey "Products" then Json.arr []
  else Json.null

/-- Projection loop of classify lines 125 to 130: walk the output template
in order, skip the CVE_ID entry, read each mapped key from the extracted
document with the per field default; data.get raises when the extracted
document is not a dict. -/
def applyTemplate (d : Json) : List (String × String) → List (String × Json) →
    Except PyExn (List (String × Json))
  | [], res => Except.ok res
  | (fk, ak) :: rest, res =>
    if fk = "CVE_ID" then applyTemplate d rest res
    else
      match pyGetD d ak (defaultFor fk) with
      | Except.error e => Except.error e
      | Except.ok v => applyTemplate d rest (dictSet res fk v)

/-- Error shaped result built by classify line 122: the identifier followed
by the update dict in its literal order. -/
def errResult (cid : Json) (used : Nat) (elapsed : Int) : List (String × Json) :=
  dictSet (dictSet (dictSet [("CVE_ID", cid)] "error" (Json.b true))
    "attempts" (Json.i (Int.ofNat used))) "execution_time_seconds" (Json.i elapsed)

/-- Model of CVEClassifier.classify lines 76 to 135. The prompt template is
carried for interface fidelity; the rendered prompt only feeds the endpoint,
which the oracle models. Wall clock time is the elapsed input. -/
def classify (cfg : Classifier) (oracle : Nat → HttpResp)
    (cve_data : List (String × Json)) (prompt_template : String)
    (cve_id_fallback : String) (elapsed : Int) :
    Except PyExn (List (String × Json)) :=
  match deriveCveId cve_data cve_id_fallback with
  | Except.error e => Except.error e
  | Except.ok cid =>
    match (classifyRun cfg oracle).data with
    | none => Except.ok (errResult cid (classifyRun cfg oracle).used elapsed)
    | some d =>
      if truthy d then
        match applyTemplate d cfg.output_map [("CVE_ID", cid)] with
        | Except.error e => Except.error e
        | Except.ok r1 =>
          Except.ok (dictSet (dictSet r1 "execution_time_seconds" (Json.i elapsed))
            "attempts" (Json.i (Int.ofNat (classifyRun cfg oracle).used)))
      else Except.ok (errResult cid (classifyRun cfg oracle).used elapsed)

/-- Source files registered for one group (keys nvd and mitre of the
file_map dict; a missing side is an absent key). -/
structure FileMap where
  nvd : Option String
  mitre : Option String

/-- One iteration of the loading loop of process_file_group: skip falsy
file names, read and parse through the read oracle (none models any caught
read or parse exception, which only logs a warning), append on success. -/
def loadSide (readOracle : String → Option Json) (base_dir tag : String)
    (fname? : Option String) (acc : List (String × Json)) : List (String × Json) :=
  match fname? with
  | none => acc
  | some f =>
    if f = "" then acc
    else
      match readOracle (base_dir ++ "/" ++ f) with
      | none => acc
      | some doc => acc ++ [(tag, doc)]

/-- Model of process_file_group from src/llm_start.py lines 80 to 97: load
the nvd then the mitre side, return none when the combined dict stayed
empty, otherwise classify the merged document with the group base name as
fallback id. -/
def process_file_group (readOracle : String → Option Json) (base : String)
    (fmap : FileMap) (base_dir : String) (cfg : Classifier)
    (oracle : Nat → HttpResp) (prompt_template : String) (elapsed : Int) :
    Except PyExn (Option (List (String × Json))) :=
  let combined := loadSide readOracle base_dir "mitre" fmap.mitre
    (loadSide readOracle base_dir "nvd" fmap.nvd [])
  if combined.isEmpty then Except.ok none
  else (classify cfg oracle combined prompt_template base elapsed).map some

/-- Completed future as seen by the result drain of main: a worker exception
surfaced by future.result(), a falsy result (a skipped group), or a result
dict. -/
inductive Outcome where
  | exn : Outcome
  | skipped : Outcome
  | res (r : List (String × Json)) : Outcome

/-- Mutable orchestrator state of main: the in memory failure list and the
completely written output files, keyed by the identifier value (the output
path is the formatted identifier with a .json suffix). -/
structure OrchState where
  failed : List Json
  written : List (Json × List (String × Json))

/-- Model of one iteration of the result drain of main lines 179 to 201:
exceptions are logged, falsy results skipped, error marked results appended
to the failure list, and other results written when the write oracle lets
the serialize, flush and fsync sequence succeed (a false write oracle is a
caught IO failure that only logs a warning). A missing CVE_ID key raises a
KeyError that the outer handler logs. -/
def drainStep (writeOk : Json → Bool) (st : OrchState) (o : Outcome) : OrchState :=
  match o with
  | Outcome.exn => st
  | Outcome.skipped => st
  | Outcome.res r =>
    if r.isEmpty then st
    else if truthyOpt (jget? r "error") then
      match jget? r "CVE_ID" with
      | some cid => { st with failed := st.failed ++ [cid] }
      | none => st
    else
      match jget? r "CVE_ID" with
      | none => st
      | some cid =>
        if writeOk cid then { st with written := st.written ++ [(cid, r)] } else st

/-- The whole result drain over the completed futures in completion order. -/
def drain (writeOk : Json → Bool) (outcomes : List Outcome) : OrchState :=
  outcomes.foldl (drainStep writeOk) ⟨[], []⟩

/-- Failure list file written by main lines 203 to 206: one identifier per
line, produced once at the end of the run exactly when the list is non
empty. -/
def failedLogFile (st : OrchState) : Option (List Json) :=
  if st.failed.isEmpty then none else some st.failed

/-- Shared concrete endpoint reply body carrying one assistant message. -/
def msgBody (content : Json) : Json :=
  Json.obj [("choices", Json.arr [Json.obj [("message", Json.obj [("content", content)])]])]

/-- Oracle that answers every POST with status 200 and the given content. -/
def contentOracle (content : Json) : Nat → HttpResp :=
  fun _ => HttpResp.reply 200 (some (msgBody content))

/-- Classifier configuration with the defaults of the CLI surface, a chosen
attempt budget and a chosen output template. -/
def testCfg (a : Nat) (tmpl : List (String × String)) : Classifier :=
  ⟨"gemma3:12b", "http://127.0.0.1:11434/v1/chat/completions", a, 2, 120, "role", tmpl⟩

theorem queryAux_all_fail (oracle : Nat → HttpResp)
    (h : ∀ m, attemptOnce (oracle m) = none) :
    ∀ (rem idx sl : Nat), queryAux oracle idx rem sl = ⟨none, idx + rem, sl + rem⟩ := by
  intro rem
  induction rem with
  | zero => intro idx sl; simp [queryAux]
  | succ r ih =>
    intro idx sl
    rw [queryAux, h idx, ih (idx + 1) (sl + 1)]
    simp [QueryOut.mk.injEq]
    omega

theorem queryAux_content_none (oracle : Nat → HttpResp) :
    ∀ (rem idx sl : Nat), (queryAux oracle idx rem sl).content = none →
      (queryAux oracle idx rem sl).nextIdx = idx + rem ∧
      (queryAux oracle idx rem sl).sleeps = sl + rem := by
  intro rem
  induction rem with
  | zero => intro idx sl _; simp [queryAux]
  | succ r ih =>
    intro idx sl h
    cases hA : attemptOnce (oracle idx) with
    | some c => simp only [queryAux, hA] at h; exact absurd h (by simp)
    | none =>
      simp only [queryAux, hA] at h ⊢
      obtain ⟨h1, h2⟩ := ih (idx + 1) (sl + 1) h
      omega

theorem queryAux_content_some (oracle : Nat → HttpResp) :
    ∀ (rem idx sl : Nat) (s : String),
      (queryAux oracle idx rem sl).content = some s →
      sl ≤ (queryAux oracle idx rem sl).sleeps ∧
      (queryAux oracle idx rem sl).nextIdx =
        idx + ((queryAux oracle idx rem sl).sleeps - sl) + 1 ∧
      ∃ m, attemptOnce (oracle m) = some s := by
  intro rem
  induction rem with
  | zero => intro idx sl s h; exact absurd h (by simp [queryAux])
  | succ r ih =>
    intro idx sl s h
    cases hA : attemptOnce (oracle idx) with
    | some c =>
      simp only [queryAux, hA] at h ⊢
      refine ⟨Nat.le_refl _, by omega, ⟨idx, ?_⟩⟩
      rw [hA, h]
    | none =>
      simp only [queryAux, hA] at h ⊢
      obtain ⟨h1, h2, h3⟩ := ih (idx + 1) (sl + 1) s h
      exact ⟨by omega, by omega, h3⟩

theorem queryAux_nextIdx_le (oracle : Nat → HttpResp) :
    ∀ (rem idx sl : Nat), (queryAux oracle idx rem sl).nextIdx ≤ idx + rem := by
  intro rem
  induction rem with
  | zero => intro idx sl; simp [queryAux]
  | succ r ih =>
    intro idx sl
    cases hA : attemptOnce (oracle idx) with
    | some c => simp only [queryAux, hA]; omega
    | none =>
      simp only [queryAux, hA]
      have := ih (idx + 1) (sl + 1)
      omega

theorem classifyAux_transport_fail (oracle : Nat → HttpResp) (b dl tm : Nat)
    (h : ∀ m, attemptOnce (oracle m) = none) :
    ∀ (rem idx used : Nat),
      classifyAux oracle b dl tm idx rem used = ⟨none, used + rem, idx + rem * b⟩ := by
  intro rem
  induction rem with
  | zero => intro idx used; simp [classifyAux]
  | succ r ih =>
    intro idx used
    have hq : _query oracle idx b dl tm = ⟨none, idx + b, 0 + b⟩ :=
      queryAux_all_fail oracle h b idx 0
    simp only [classifyAux, hq]
    rw [ih (idx + b) (used + 1), Nat.succ_mul]
    simp only [LoopOut.mk.injEq, true_and]
    exact ⟨by omega, by omega⟩

theorem classifyAux_all_bad (oracle : Nat → HttpResp) (b dl tm : Nat)
    (hbad : ∀ m s, attemptOnce (oracle m) = some s →
      ∃ e, safe_json_loads s = Except.error e) :
    ∀ (rem idx used : Nat),
      (classifyAux oracle b dl tm idx rem used).data = none ∧
      (classifyAux oracle b dl tm idx rem used).used = used + rem := by
  intro rem
  induction rem with
  | zero => intro idx used; simp [classifyAux]
  | succ r ih =>
    intro idx used
    cases hq : (_query oracle idx b dl tm).content with
    | none =>
      simp only [classifyAux, hq]
      obtain ⟨h1, h2⟩ := ih ((_query oracle idx b dl tm).nextIdx) (used + 1)
      exact ⟨h1, by rw [h2]; omega⟩
    | some raw =>
      by_cases hr : raw = ""
      · simp only [classifyAux, hq, if_pos hr]
        obtain ⟨h1, h2⟩ := ih ((_query oracle idx b dl tm).nextIdx) (used + 1)
        exact ⟨h1, by rw [h2]; omega⟩
      · obtain ⟨-, -, m, hm⟩ := queryAux_content_some oracle b idx 0 raw hq
        obtain ⟨e, he⟩ := hbad m raw hm
        simp only [classifyAux, hq, if_neg hr, he]
        obtain ⟨h1, h2⟩ := ih ((_query oracle idx b dl tm).nextIdx) (used + 1)
        exact ⟨h1, by rw [h2]; omega⟩

theorem classifyAux_nextIdx_le (oracle : Nat → HttpResp) (b dl tm : Nat) :
    ∀ (rem idx used : Nat),
      (classifyAux oracle b dl tm idx rem used).nextIdx ≤ idx + rem * b := by
  intro rem
  induction rem with
  | zero => intro idx used; simp [classifyAux]
  | succ r ih =>
    intro idx used
    have hql : (_query oracle idx b dl tm).nextIdx ≤ idx + b :=
      queryAux_nextIdx_le oracle b idx 0
    cases hq : (_query oracle idx b dl tm).content with
    | none =>
      simp only [classifyAux, hq]
      have := ih ((_query oracle idx b dl tm).nextIdx) (used + 1)
      rw [Nat.succ_mul]
      omega
    | some raw =>
      by_cases hr : raw = ""
      · simp only [classifyAux, hq, if_pos hr]
        have := ih ((_query oracle idx b dl tm).nextIdx) (used + 1)
        rw [Nat.succ_mul]
        omega
      · cases hp : safe_json_loads raw with
        | ok d =>
          simp only [classifyAux, hq, if_neg hr, hp]
          rw [Nat.succ_mul]
          omega
        | error e =>
          simp only [classifyAux, hq, if_neg hr, hp]
          have := ih ((_query oracle idx b dl tm).nextIdx) (used + 1)
          rw [Nat.succ_mul]
          omega

/-- The error shaped result as a literal dict (the update calls never hit an
existing key because the initial dict only holds CVE_ID). -/
theorem errResult_eq (cid : Json) (used : Nat) (elapsed : Int) :
    errResult cid used elapsed =
      [("CVE_ID", cid), ("error", Json.b true), ("attempts", Json.i (Int.ofNat used)),
       ("execution_time_seconds", Json.i elapsed)] := rfl

/-- Claim C5: the outer attempt loop of classify is layered on top of the
internal attempt budget of the transport client as two nested bounded loops,
so the worst case number of HTTP attempts per record is the product of the
two budgets; classify passes its single attempts field to both layers, so
the product it realises is the square of that budget. Conjunct one bounds
the HTTP posts of any classify run by that product, conjunct two reaches the
product when every transport attempt fails, and conjunct three exhibits the
general outer times inner product over the two separate budget parameters. -/
theorem attempt_budget_product (cfg : Classifier) (oracle : Nat → HttpResp) :
    (classifyRun cfg oracle).nextIdx ≤ cfg.attempts * cfg.attempts ∧
    ((∀ m, attemptOnce (oracle m) = none) →
      (classifyRun cfg oracle).nextIdx = cfg.attempts * cfg.attempts) ∧
    (∀ (outerB innerB dl tm idx used : Nat), (∀ m, attemptOnce (oracle m) = none) →
      (classifyAux oracle innerB dl tm idx outerB used).nextIdx = idx + outerB * innerB) := by
  refine ⟨?_, ?_, ?_⟩
  · have := classifyAux_nextIdx_le oracle cfg.attempts cfg.retry_delay cfg.timeout
      cfg.attempts 0 0
    simpa [classifyRun] using this
  · intro h
    have := classifyAux_transport_fail oracle cfg.attempts cfg.retry_delay cfg.timeout h
      cfg.attempts 0 0
    simp [classifyRun, this]
  · intro outerB innerB dl tm idx used h
    rw [classifyAux_transport_fail oracle innerB dl tm h outerB idx used]

/-- Claim C5 witness: with an attempt budget of two and an endpoint that
always fails at the network level, a classify run performs exactly four
HTTP posts, and the bound holds at the same input. -/
theorem attempt_budget_product_witness :
    (classifyRun (testCfg 2 []) (fun _ => HttpResp.netFail)).nextIdx ≤ 2 * 2 ∧
    (classifyRun (testCfg 2 []) (fun _ => HttpResp.netFail)).nextIdx = 2 * 2 := by
  obtain ⟨h1, h2, -⟩ := attempt_budget_product (testCfg 2 []) (fun _ => HttpResp.netFail)
  exact ⟨h1, h2 (fun m => rfl)⟩

/-- Claim C6 (amended): in the transport client, a sleep of delay seconds
follows every attempt that does not return content, including the final one
before returning none on exhaustion; an attempt that returns content ends
the call immediately with no sleep after it, so a call that returns content
performs exactly one more post than it performs sleeps. -/
theorem query_sleep_discipline (oracle : Nat → HttpResp) (idx n dl tm : Nat) :
    ((_query oracle idx n dl tm).content = none →
      (_query oracle idx n dl tm).sleeps = n ∧
      (_query oracle idx n dl tm).nextIdx = idx + n) ∧
    (∀ s, (_query oracle idx n dl tm).content = some s →
      (_query oracle idx n dl tm).sleeps + 1 = (_query oracle idx n dl tm).nextIdx - idx) := by
  unfold _query
  constructor
  · intro h
    obtain ⟨h1, h2⟩ := queryAux_content_none oracle n idx 0 h
    exact ⟨by omega, h1⟩
  · intro s h
    obtain ⟨h1, h2, -⟩ := queryAux_content_some oracle n idx 0 s h
    omega

/-- Claim C6 witness: with an endpoint that always fails, a three attempt
call sleeps three times; the characterization applies with the content
hypothesis discharged by computation. -/
theorem query_sleep_discipline_witness :
    (_query (fun _ => HttpResp.netFail) 0 3 2 120).sleeps = 3 ∧
    (_query (fun _ => HttpResp.netFail) 0 3 2 120).nextIdx = 0 + 3 :=
  (query_sleep_discipline (fun _ => HttpResp.netFail) 0 3 2 120).1 rfl

/-- Claim C6 counterexample: an attempt that succeeds returns at once, so a
first attempt success under a budget of three performs one post and zero
sleeps, refuting the unconditional sleep after every attempt (which would
force the sleep count to match the post count). -/
theorem query_no_sleep_after_success :
    _query (contentOracle (Json.s "x")) 0 3 2 120 = ⟨some "x", 1, 0⟩ ∧
    (_query (contentOracle (Json.s "x")) 0 3 2 120).sleeps ≠
      (_query (contentOracle (Json.s "x")) 0 3 2 120).nextIdx - 0 :=
  ⟨rfl, by decide⟩

/-- Claim C7: when the identifier derivation succeeds and every transport
attempt that yields content yields content on which the response extractor
fails, classify returns the error shaped result whose error field is true
and whose attempts field equals the configured attempt budget exactly. -/
theorem classify_attempt_exhaustion (cfg : Classifier) (oracle : Nat → HttpResp)
    (cve_data : List (String × Json)) (tpl fb : String) (elapsed : Int) (cid : Json)
    (hpos : 1 ≤ cfg.attempts)
    (hid : deriveCveId cve_data fb = Except.ok cid)
    (hbad : ∀ m s, attemptOnce (oracle m) = some s →
      ∃ e, safe_json_loads s = Except.error e) :
    classify cfg oracle cve_data tpl fb elapsed =
      Except.ok (errResult cid cfg.attempts elapsed) ∧
    jget? (errResult cid cfg.attempts elapsed) "error" = some (Json.b true) ∧
    jget? (errResult cid cfg.attempts elapsed) "attempts" =
      some (Json.i (Int.ofNat cfg.attempts)) := by
  obtain ⟨h1, h2⟩ := classifyAux_all_bad oracle cfg.attempts cfg.retry_delay cfg.timeout hbad
    cfg.attempts 0 0
  refine ⟨?_, rfl, rfl⟩
  simp only [classify, classifyRun] at h1 h2 ⊢
  rw [hid]
  simp only [h1, h2, Nat.zero_add]

/-- Claim C7 witness: a budget of two against an endpoint whose content is
never parseable JSON yields the error result with attempts equal to two. -/
theorem classify_attempt_exhaustion_witness :
    classify (testCfg 2 [("Category", "category")]) (contentOracle (Json.s "not json"))
        [] "p" "CVE-W7" 5 =
      Except.ok (errResult (Json.s "CVE-W7") 2 5) ∧
    jget? (errResult (Json.s "CVE-W7") 2 5) "error" = some (Json.b true) ∧
    jget? (errResult (Json.s "CVE-W7") 2 5) "attempts" = some (Json.i (Int.ofNat 2)) := by
  refine classify_attempt_exhaustion (testCfg 2 [("Category", "category")])
    (contentOracle (Json.s "not json")) [] "p" "CVE-W7" 5 (Json.s "CVE-W7")
    (by decide) rfl ?_
  intro m s h
  have h2 : (some "not json" : Option String) = some s := h
  injection h2 with h3
  subst h3
  exact ⟨JErr.parseFailed "not json", rfl⟩

/-- Claim C9: when one attempt of the outer loop extracts the empty JSON
object, the loop stops at that attempt with the extracted document, and
classify nevertheless returns the error shaped result carrying that attempt
count, treating the falsy extracted object like total extraction failure. -/
theorem classify_empty_object_errors (cfg : Classifier) (oracle : Nat → HttpResp)
    (cve_data : List (String × Json)) (tpl fb : String) (elapsed : Int)
    (cid : Json) (u ix : Nat)
    (hid : deriveCveId cve_data fb = Except.ok cid)
    (haux : classifyRun cfg oracle = ⟨some (Json.obj []), u, ix⟩) :
    classify cfg oracle cve_data tpl fb elapsed =
      Except.ok [("CVE_ID", cid), ("error", Json.b true),
        ("attempts", Json.i (Int.ofNat u)), ("execution_time_seconds", Json.i elapsed)] := by
  simp only [classify, haux]
  rw [hid]
  rfl

/-- Claim C9 witness: an endpoint that returns the empty object on the
first attempt under a budget of three produces the error result with
attempts equal to one, strictly below the budget, showing the loop stopped
on the successful extraction. -/
theorem classify_empty_object_errors_witness :
    classify (testCfg 3 [("Category", "category")]) (contentOracle (Json.s "\x7b\x7d"))
        [] "p" "CVE-W9" 4 =
      Except.ok [("CVE_ID", Json.s "CVE-W9"), ("error", Json.b true),
        ("attempts", Json.i (Int.ofNat 1)), ("execution_time_seconds", Json.i 4)] :=
  classify_empty_object_errors (testCfg 3 [("Category", "category")])
    (contentOracle (Json.s "\x7b\x7d")) [] "p" "CVE-W9" 4 (Json.s "CVE-W9") 1 1 rfl rfl

/-- Claim C1 (code bug witness evaluation): when the endpoint returns the
text 42, which has no brace span, the extractor falls back to parsing the
whole string and hands the integer 42 to the template projection, whose
data.get call raises an AttributeError that escapes classify instead of
being converted to the error shaped result. -/
theorem classify_attribute_error_escape :
    classify (testCfg 1 [("Category", "category")]) (contentOracle (Json.s "42"))
      [] "p" "CVE-0000-0000" 0 = Except.error PyExn.attributeError := rfl

theorem jget?_dictSet_self (l : List (String × Json)) (k : String) (v : Json) :
    jget? (dictSet l k v) k = some v := by
  induction l with
  | nil => simp [dictSet, jget?]
  | cons hd rest ih =>
    obtain ⟨k', v'⟩ := hd
    by_cases h : k' = k
    · simp [dictSet, if_pos h, jget?]
    · simp only [dictSet, if_neg h, jget?]
      exact ih

theorem jget?_dictSet_ne (l : List (String × Json)) (k : String) (v : Json)
    (k' : String) (hne : k' ≠ k) : jget? (dictSet l k v) k' = jget? l k' := by
  induction l with
  | nil => simp [dictSet, jget?, if_neg (Ne.symm hne)]
  | cons hd rest ih =>
    obtain ⟨a, b⟩ := hd
    by_cases h : a = k
    · subst h
      simp only [dictSet, if_pos rfl, jget?]
      rw [if_neg (Ne.symm hne), if_neg (Ne.symm hne)]
    · simp only [dictSet, if_neg h, jget?]
      by_cases h2 : a = k'
      · rw [if_pos h2, if_pos h2]
      · rw [if_neg h2, if_neg h2]
        exact ih

theorem applyTemplate_untouched (d : Json) :
    ∀ (tmpl : List (String × String)) (res out : List (String × Json)) (k : String),
      applyTemplate d tmpl res = Except.ok out →
      (∀ p ∈ tmpl, p.1 ≠ "CVE_ID" → p.1 ≠ k) →
      jget? out k = jget? res k := by
  intro tmpl
  induction tmpl with
  | nil =>
    intro res out k h _
    simp only [applyTemplate, Except.ok.injEq] at h
    rw [h]
  | cons hd rest ih =>
    intro res out k h hk
    obtain ⟨fk, ak⟩ := hd
    by_cases hcve : fk = "CVE_ID"
    · simp only [applyTemplate, if_pos hcve] at h
      exact ih res out k h (fun p hp => hk p (List.mem_cons_of_mem _ hp))
    · simp only [applyTemplate, if_neg hcve] at h
      cases hg : pyGetD d ak (defaultFor fk) with
      | error e => simp [hg] at h
      | ok v =>
        simp only [hg] at h
        have hrec := ih (dictSet res fk v) out k h
          (fun p hp => hk p (List.mem_cons_of_mem _ hp))
        have hfk : fk ≠ k := hk (fk, ak) (List.mem_cons_self _ _) hcve
        rw [hrec, jget?_dictSet_ne res fk v k (Ne.symm hfk)]

theorem applyTemplate_fields (d : Json) :
    ∀ (tmpl : List (String × String)) (res out : List (String × Json)),
      applyTemplate d tmpl res = Except.ok out →
      (tmpl.map Prod.fst).Nodup →
      ∀ p ∈ tmpl, p.1 ≠ "CVE_ID" →
        ∃ v, pyGetD d p.2 (defaultFor p.1) = Except.ok v ∧ jget? out p.1 = some v := by
  intro tmpl
  induction tmpl with
  | nil => intro res out _ _ p hp; exact absurd hp (by simp)
  | cons hd rest ih =>
    intro res out h hn p hp hpcve
    obtain ⟨fk, ak⟩ := hd
    obtain ⟨hn1, hn2⟩ := List.nodup_cons.mp hn
    by_cases hcve : fk = "CVE_ID"
    · simp only [applyTemplate, if_pos hcve] at h
      rcases List.mem_cons.mp hp with heq | hp'
      · exact absurd (by rw [heq]; exact hcve) hpcve
      · exact ih res out h hn2 p hp' hpcve
    · simp only [applyTemplate, if_neg hcve] at h
      cases hg : pyGetD d ak (defaultFor fk) with
      | error e => simp [hg] at h
      | ok v =>
        simp only [hg] at h
        rcases List.mem_cons.mp hp with heq | hp'
        · subst heq
          refine ⟨v, hg, ?_⟩
          have hnot : ∀ q ∈ rest, q.1 ≠ "CVE_ID" → q.1 ≠ fk := by
            intro q hq _ he
            apply hn1
            rw [← he]
            exact List.mem_map.mpr ⟨q, hq, rfl⟩
          rw [applyTemplate_untouched d rest (dictSet res fk v) out fk h hnot]
          exact jget?_dictSet_self res fk v
        · exact ih (dictSet res fk v) out h hn2 p hp' hpcve

/-- Success shape of a classification result relative to the extracted
document: identifier present, every non identifier template field present
with the value read from its mapped key under the declared default, the
timing and attempt fields present, and no error field. -/
def succShape (tmpl : List (String × String)) (d : Json) (r : List (String × Json)) : Prop :=
  (jget? r "CVE_ID").isSome = true ∧
  (∀ p ∈ tmpl, p.1 ≠ "CVE_ID" →
    ∃ v, pyGetD d p.2 (defaultFor p.1) = Except.ok v ∧ jget? r p.1 = some v) ∧
  (jget? r "execution_time_seconds").isSome = true ∧
  (jget? r "attempts").isSome = true ∧
  jget? r "error" = none

/-- Error shape of a classification result: exactly the identifier, the
true error flag, the attempts made and the elapsed time, in that order. -/
def errShape (r : List (String × Json)) : Prop :=
  ∃ cid a t, r = [("CVE_ID", cid), ("error", Json.b true), ("attempts", a),
    ("execution_time_seconds", t)]

theorem jget?_quad_ne (cid a t : Json) (k : String) (h1 : k ≠ "CVE_ID")
    (h2 : k ≠ "error") (h3 : k ≠ "attempts") (h4 : k ≠ "execution_time_seconds") :
    jget? [("CVE_ID", cid), ("error", Json.b true), ("attempts", a),
      ("execution_time_seconds", t)] k = none := by
  simp only [jget?]
  rw [if_neg (Ne.symm h1), if_neg (Ne.symm h2), if_neg (Ne.symm h3), if_neg (Ne.symm h4)]

theorem errResult_props (tmpl : List (String × String)) (cid : Json) (used : Nat)
    (elapsed : Int)
    (hdisj : ∀ p ∈ tmpl, p.1 ≠ "error" ∧ p.1 ≠ "attempts" ∧ p.1 ≠ "execution_time_seconds") :
    errShape (errResult cid used elapsed) ∧
    ∀ p ∈ tmpl, p.1 ≠ "CVE_ID" → jget? (errResult cid used elapsed) p.1 = none := by
  constructor
  · exact ⟨cid, Json.i (Int.ofNat used), Json.i elapsed, errResult_eq cid used elapsed⟩
  · intro p hp hpcve
    obtain ⟨h1, h2, h3⟩ := hdisj p hp
    rw [errResult_eq]
    exact jget?_quad_ne cid _ _ p.1 hpcve h1 h2 h3

/-- Claim C2 (amended): for every output template whose final field names
are distinct and avoid error, attempts and execution_time_seconds, every
classify call that returns a result returns exactly one of two shapes: the
error result carrying only the identifier, the true error flag, the
attempts made and the elapsed time (and hence no other template declared
field), or the success result carrying the identifier, every template
declared field with its mapped value under the declared vendor and product
list defaults, the elapsed time and the attempts, and no error field. -/
theorem classify_result_dichotomy (cfg : Classifier) (oracle : Nat → HttpResp)
    (cve_data : List (String × Json)) (tpl fb : String) (elapsed : Int)
    (r : List (String × Json))
    (hdisj : ∀ p ∈ cfg.output_map,
      p.1 ≠ "error" ∧ p.1 ≠ "attempts" ∧ p.1 ≠ "execution_time_seconds")
    (hnodup : (cfg.output_map.map Prod.fst).Nodup)
    (hok : classify cfg oracle cve_data tpl fb elapsed = Except.ok r) :
    (errShape r ∧ ∀ p ∈ cfg.output_map, p.1 ≠ "CVE_ID" → jget? r p.1 = none) ∨
    (∃ d, (classifyRun cfg oracle).data = some d ∧ truthy d = true ∧
      succShape cfg.output_map d r) := by
  cases hid : deriveCveId cve_data fb with
  | error e =>
    simp only [classify, hid] at hok
    exact absurd hok (by simp)
  | ok cid =>
    simp only [classify, hid] at hok
    cases hdata : (classifyRun cfg oracle).data with
    | none =>
      simp only [hdata] at hok
      have hr : r = errResult cid (classifyRun cfg oracle).used elapsed :=
        (Except.ok.inj hok).symm
      subst hr
      exact Or.inl (errResult_props cfg.output_map cid _ elapsed hdisj)
    | some d =>
      simp only [hdata] at hok
      cases ht : truthy d with
      | false =>
        simp only [ht, Bool.false_eq_true, if_false] at hok
        have hr : r = errResult cid (classifyRun cfg oracle).used elapsed :=
          (Except.ok.inj hok).symm
        subst hr
        exact Or.inl (errResult_props cfg.output_map cid _ elapsed hdisj)
      | true =>
        simp only [ht, eq_self_iff_true, if_true] at hok
        cases hat : applyTemplate d cfg.output_map [("CVE_ID", cid)] with
        | error e2 => simp only [hat] at hok; exact absurd hok (by simp)
        | ok r1 =>
          simp only [hat] at hok
          have hr := (Except.ok.inj hok).symm
          subst hr
          refine Or.inr ⟨d, rfl, ht, ?_, ?_, ?_, ?_, ?_⟩
          · rw [jget?_dictSet_ne _ _ _ _ (by decide), jget?_dictSet_ne _ _ _ _ (by decide),
              applyTemplate_untouched d cfg.output_map _ r1 "CVE_ID" hat (fun p hp h => h)]
            rfl
          · intro p hp hpcve
            obtain ⟨h1, h2, h3⟩ := hdisj p hp
            obtain ⟨v, hv, hj⟩ := applyTemplate_fields d cfg.output_map _ r1 hat hnodup p hp hpcve
            refine ⟨v, hv, ?_⟩
            rw [jget?_dictSet_ne _ _ _ _ h2, jget?_dictSet_ne _ _ _ _ h3, hj]
          · rw [jget?_dictSet_ne _ _ _ _ (by decide), jget?_dictSet_self]
            rfl
          · rw [jget?_dictSet_self]
            rfl
          · rw [jget?_dictSet_ne _ _ _ _ (by decide), jget?_dictSet_ne _ _ _ _ (by decide),
              applyTemplate_untouched d cfg.output_map _ r1 "error" hat
                (fun p hp _ => (hdisj p hp).1)]
            rfl

/-- Output template of the C2 witness run. -/
def w2Tmpl : List (String × String) := [("Category", "category"), ("Vendors", "vendors")]

/-- Classifier of the C2 witness run: budget one, the witness template. -/
def w2Cfg : Classifier := testCfg 1 w2Tmpl

/-- Endpoint of the C2 witness run: a reply whose content names a category
but omits the vendors key, exercising the empty list default. -/
def w2Oracle : Nat → HttpResp := contentOracle (Json.s "\x7b\"category\": \"RCE\"\x7d")

/-- Result of the C2 witness run. -/
def w2Res : List (String × Json) :=
  [("CVE_ID", Json.s "CVE-W2"), ("Category", Json.s "RCE"), ("Vendors", Json.arr []),
   ("execution_time_seconds", Json.i 0), ("attempts", Json.i 1)]

/-- Claim C2 witness: the dichotomy applied to a concrete successful run
whose template omits the vendors key so the declared default shows up. -/
theorem classify_result_dichotomy_witness :
    (errShape w2Res ∧ ∀ p ∈ w2Tmpl, p.1 ≠ "CVE_ID" → jget? w2Res p.1 = none) ∨
    (∃ d, (classifyRun w2Cfg w2Oracle).data = some d ∧ truthy d = true ∧
      succShape w2Tmpl d w2Res) :=
  classify_result_dichotomy w2Cfg w2Oracle [] "p" "CVE-W2" 0 w2Res
    (by decide) (by decide) rfl

/-- Success shape exactly as claim C2 words it, for an arbitrary template:
identifier, every template declared field, timing and attempts present, no
error field. -/
def claimSuccShape (tmpl : List (String × String)) (r : List (String × Json)) : Prop :=
  (jget? r "CVE_ID").isSome = true ∧
  (∀ p ∈ tmpl, p.1 ≠ "CVE_ID" → (jget? r p.1).isSome = true) ∧
  (jget? r "execution_time_seconds").isSome = true ∧
  (jget? r "attempts").isSome = true ∧
  jget? r "error" = none

/-- Error shape exactly as claim C2 words it, for an arbitrary template:
identifier, truthy error flag, attempts and elapsed time present, and no
template declared field. -/
def claimErrShape (tmpl : List (String × String)) (r : List (String × Json)) : Prop :=
  (jget? r "CVE_ID").isSome = true ∧
  truthyOpt (jget? r "error") = true ∧
  (jget? r "attempts").isSome = true ∧
  (jget? r "execution_time_seconds").isSome = true ∧
  ∀ p ∈ tmpl, p.1 ≠ "CVE_ID" → jget? r p.1 = none

/-- Result of the C2 counterexample run: the template declares a final
field literally named error, and the success path stores the default null
under it, so the result matches neither shape of the claim. -/
def cexErrKeyRes : List (String × Json) :=
  [("CVE_ID", Json.s "CVE-X"), ("error", Json.null),
   ("execution_time_seconds", Json.i 0), ("attempts", Json.i 1)]

/-- Claim C2 counterexample: with the output template declaring a final
field named error, a successful classify call returns a result that carries
an error key (with value null) next to real template values, which is
neither the claimed success shape (no error field) nor the claimed error
shape (truthy error flag and no template field). -/
theorem classify_template_error_key_breaks_shape :
    classify (testCfg 1 [("error", "e")]) (contentOracle (Json.s "\x7b\"x\": 1\x7d"))
        [] "p" "CVE-X" 0 = Except.ok cexErrKeyRes ∧
    ¬ (claimSuccShape [("error", "e")] cexErrKeyRes ∨
       claimErrShape [("error", "e")] cexErrKeyRes) := by
  refine ⟨rfl, ?_⟩
  intro h
  rcases h with hs | he
  · exact Option.noConfusion hs.2.2.2.2
  · exact Bool.noConfusion he.2.1

theorem firstIdxOf_append (c : Char) (pre rest : List Char)
    (h : ∀ x ∈ pre, x ≠ c) :
    firstIdxOf c (pre ++ c :: rest) = some pre.length := by
  induction pre with
  | nil => simp [firstIdxOf]
  | cons a as ih =>
    have ha : a ≠ c := h a (List.mem_cons_self _ _)
    simp only [List.cons_append, firstIdxOf, if_neg ha]
    rw [show as.append (c :: rest) = as ++ c :: rest from rfl,
      ih (fun x hx => h x (List.mem_cons_of_mem _ hx))]
    simp

theorem braceSpan_embedded (pre mid post : List Char)
    (hpre : ∀ x ∈ pre, x ≠ '\x7b') (hpost : ∀ x ∈ post, x ≠ '\x7d') :
    braceSpanList (pre ++ ('\x7b' :: mid ++ ['\x7d']) ++ post) =
      some ('\x7b' :: mid ++ ['\x7d']) := by
  have hassoc : pre ++ ('\x7b' :: mid ++ ['\x7d']) ++ post =
      pre ++ '\x7b' :: (mid ++ ['\x7d'] ++ post) := by
    simp [List.append_assoc]
  have hfirst : firstIdxOf '\x7b' (pre ++ ('\x7b' :: mid ++ ['\x7d']) ++ post) =
      some pre.length := by
    rw [hassoc]
    exact firstIdxOf_append _ pre _ hpre
  have hrev : (pre ++ ('\x7b' :: mid ++ ['\x7d']) ++ post).reverse =
      post.reverse ++ '\x7d' :: (mid.reverse ++ '\x7b' :: pre.reverse) := by
    simp [List.reverse_append, List.append_assoc]
  have hsecond : firstIdxOf '\x7d' (pre ++ ('\x7b' :: mid ++ ['\x7d']) ++ post).reverse =
      some post.length := by
    rw [hrev]
    have := firstIdxOf_append '\x7d' post.reverse (mid.reverse ++ '\x7b' :: pre.reverse)
      (fun x hx => hpost x (List.mem_reverse.mp hx))
    simpa using this
  have hlen : (pre ++ ('\x7b' :: mid ++ ['\x7d']) ++ post).length =
      pre.length + (mid.length + 2) + post.length := by
    simp
    omega
  have hcond : pre.length < pre.length + (mid.length + 2) + post.length - 1 - post.length := by
    omega
  simp only [braceSpanList, hfirst, hsecond, hlen]
  rw [if_pos hcond]
  have hdrop : (pre ++ ('\x7b' :: mid ++ ['\x7d']) ++ post).drop pre.length =
      ('\x7b' :: mid ++ ['\x7d']) ++ post := by
    rw [List.append_assoc]
    exact List.drop_left pre _
  have harith : pre.length + (mid.length + 2) + post.length - 1 - post.length -
      pre.length + 1 = ('\x7b' :: mid ++ ['\x7d']).length := by
    simp
    omega
  rw [hdrop, harith]
  rw [List.take_left]

/-- Claim C3 (amended): for every string made of an exact JSON object text
(opening brace to closing brace) surrounded by prose that contains no
opening brace before it and no closing brace after it, safe_json_loads
returns the parsed object; the empty string always fails with the empty
input error; and when no brace span exists the whole string is parsed. -/
theorem safe_json_loads_embedded (pre mid post : List Char) (v : Json)
    (hpre : ∀ x ∈ pre, x ≠ '\x7b') (hpost : ∀ x ∈ post, x ≠ '\x7d')
    (hparse : json_loads ('\x7b' :: mid ++ ['\x7d']) = some v) :
    safe_json_loads (String.mk (pre ++ ('\x7b' :: mid ++ ['\x7d']) ++ post)) = Except.ok v ∧
    safe_json_loads "" = Except.error JErr.emptyInput ∧
    (∀ (cs : List Char) (w : Json), cs ≠ [] → braceSpanList cs = none →
      json_loads cs = some w → safe_json_loads (String.mk cs) = Except.ok w) := by
  refine ⟨?_, rfl, ?_⟩
  · have htl : (String.mk (pre ++ ('\x7b' :: mid ++ ['\x7d']) ++ post)).toList =
        pre ++ ('\x7b' :: mid ++ ['\x7d']) ++ post := rfl
    rw [safe_json_loads, htl, if_neg (by simp)]
    simp only [braceSpan_embedded pre mid post hpre hpost, hparse]
  · intro cs w hne hspan hjson
    have htl : (String.mk cs).toList = cs := rfl
    rw [safe_json_loads, htl, if_neg hne]
    simp only [hspan, hjson]

/-- Claim C3 witness: the object text surrounded by braceless prose on both
sides parses to the object, and the other two conjuncts apply as stated. -/
theorem safe_json_loads_embedded_witness :
    safe_json_loads (String.mk (("note ".toList) ++
      ('\x7b' :: ("\"a\": 1".toList) ++ ['\x7d']) ++ (" ok".toList))) =
      Except.ok (Json.obj [("a", Json.i 1)]) ∧
    safe_json_loads "" = Except.error JErr.emptyInput ∧
    (∀ (cs : List Char) (w : Json), cs ≠ [] → braceSpanList cs = none →
      json_loads cs = some w → safe_json_loads (String.mk cs) = Except.ok w) :=
  safe_json_loads_embedded ("note ".toList) ("\"a\": 1".toList) (" ok".toList)
    (Json.obj [("a", Json.i 1)]) (by decide) (by decide) rfl

/-- Claim C3 counterexample: the string brace quote a quote colon one brace
space brace contains the valid JSON object over key a as a substring, yet
safe_json_loads fails on it, because the greedy span from the first opening
brace to the last closing brace is not itself valid JSON; so the universal
reading of the claim (every non empty string containing a valid object in
arbitrary prose parses) is false. -/
theorem safe_json_loads_stray_brace_fails :
    json_loads ("\x7b\"a\": 1\x7d".toList) = some (Json.obj [("a", Json.i 1)]) ∧
    safe_json_loads "\x7b\"a\": 1\x7d \x7d" =
      Except.error (JErr.parseFailed "\x7b\"a\": 1\x7d \x7d") := ⟨rfl, rfl⟩

/-- Claim C4 (amended): a group is skipped entirely, producing no result
(so nothing is written and nothing reaches the failure list, the skipped
outcome leaving the orchestrator state untouched) exactly in the case where
every present source file of the group fails to read or parse. -/
theorem group_skipped_when_all_loads_fail (ro : String → Option Json) (base : String)
    (fmap : FileMap) (base_dir : String) (cfg : Classifier) (oracle : Nat → HttpResp)
    (tpl : String) (elapsed : Int)
    (hnvd : ∀ f, fmap.nvd = some f → f ≠ "" → ro (base_dir ++ "/" ++ f) = none)
    (hmitre : ∀ f, fmap.mitre = some f → f ≠ "" → ro (base_dir ++ "/" ++ f) = none) :
    process_file_group ro base fmap base_dir cfg oracle tpl elapsed = Except.ok none ∧
    (∀ (w : Json → Bool) (st : OrchState), drainStep w st Outcome.skipped = st) := by
  constructor
  · have h1 : loadSide ro base_dir "nvd" fmap.nvd [] = [] := by
      cases hf : fmap.nvd with
      | none => rfl
      | some f =>
        by_cases he : f = ""
        · simp [loadSide, he]
        · simp [loadSide, he, hnvd f hf he]
    have h2 : loadSide ro base_dir "mitre" fmap.mitre [] = [] := by
      cases hf : fmap.mitre with
      | none => rfl
      | some f =>
        by_cases he : f = ""
        · simp [loadSide, he]
        · simp [loadSide, he, hmitre f hf he]
    simp [process_file_group, h1, h2]
  · intro w st
    rfl

/-- Claim C4 witness: a group whose two registered files both fail to read
is skipped. -/
theorem group_skipped_when_all_loads_fail_witness :
    process_file_group (fun _ => none) "CVE-2" ⟨some "CVE-2.nvd", some "CVE-2.mitre"⟩
      "json" (testCfg 1 []) (fun _ => HttpResp.netFail) "p" 0 = Except.ok none ∧
    (∀ (w : Json → Bool) (st : OrchState), drainStep w st Outcome.skipped = st) :=
  group_skipped_when_all_loads_fail (fun _ => none) "CVE-2"
    ⟨some "CVE-2.nvd", some "CVE-2.mitre"⟩ "json" (testCfg 1 [])
    (fun _ => HttpResp.netFail) "p" 0
    (fun f _ _ => rfl) (fun f _ _ => rfl)

/-- Read oracle of the C4 counterexample: the mitre side of the group loads
while the nvd side fails. -/
def c4Read : String → Option Json :=
  fun p => if p = "json/CVE-1.mitre" then some (Json.obj [("x", Json.i 1)]) else none

/-- Result produced for the half loadable group of the C4 counterexample. -/
def c4Res : List (String × Json) :=
  [("CVE_ID", Json.s "CVE-1"), ("error", Json.b true), ("attempts", Json.i (Int.ofNat 1)),
   ("execution_time_seconds", Json.i 0)]

/-- Claim C4 counterexample: a group with two registered source files of
which exactly one fails to load is not skipped; process_file_group still
produces a classification result for it, so the claim that a group with one
unreadable source file is skipped entirely is false on the code. -/
theorem partial_group_still_classified :
    process_file_group c4Read "CVE-1" ⟨some "CVE-1.nvd", some "CVE-1.mitre"⟩ "json"
        (testCfg 1 []) (fun _ => HttpResp.netFail) "p" 0 = Except.ok (some c4Res) ∧
    process_file_group c4Read "CVE-1" ⟨some "CVE-1.nvd", some "CVE-1.mitre"⟩ "json"
        (testCfg 1 []) (fun _ => HttpResp.netFail) "p" 0 ≠ Except.ok none := by
  refine ⟨rfl, ?_⟩
  intro h
  have h2 : (Except.ok (some c4Res) : Except PyExn (Option (List (String × Json)))) =
      Except.ok none := h
  injection h2 with h3
  exact Option.noConfusion h3

theorem drainStep_failed_suffix (w : Json → Bool) (st : OrchState) (o : Outcome) :
    ∃ l, (drainStep w st o).failed = st.failed ++ l := by
  cases o with
  | exn => exact ⟨[], by simp [drainStep]⟩
  | skipped => exact ⟨[], by simp [drainStep]⟩
  | res r =>
    simp only [drainStep]
    by_cases h1 : r.isEmpty = true
    · rw [if_pos h1]
      exact ⟨[], by simp⟩
    · rw [if_neg h1]
      by_cases h2 : truthyOpt (jget? r "error") = true
      · rw [if_pos h2]
        cases hc : jget? r "CVE_ID" with
        | none => exact ⟨[], by simp⟩
        | some cid => exact ⟨[cid], rfl⟩
      · rw [if_neg h2]
        cases hc : jget? r "CVE_ID" with
        | none => exact ⟨[], by simp⟩
        | some cid =>
          refine ⟨[], ?_⟩
          by_cases h3 : w cid = true
          · simp [h3]
          · simp [h3]

theorem drain_failed_mono (w : Json → Bool) :
    ∀ (outs : List Outcome) (st : OrchState) (x : Json),
      x ∈ st.failed → x ∈ (outs.foldl (drainStep w) st).failed := by
  intro outs
  induction outs with
  | nil => intro st x h; exact h
  | cons o rest ih =>
    intro st x h
    simp only [List.foldl_cons]
    apply ih
    obtain ⟨l, hl⟩ := drainStep_failed_suffix w st o
    rw [hl]
    exact List.mem_append_left _ h

theorem drainStep_written_cases (w : Json → Bool) (st : OrchState) (o : Outcome)
    (p : Json × List (String × Json)) (hp : p ∈ (drainStep w st o).written) :
    p ∈ st.written ∨ ∃ r cid, o = Outcome.res r ∧ p = (cid, r) ∧
      truthyOpt (jget? r "error") = false ∧ jget? r "CVE_ID" = some cid ∧ w cid = true := by
  cases o with
  | exn => exact Or.inl hp
  | skipped => exact Or.inl hp
  | res r =>
    simp only [drainStep] at hp
    by_cases h1 : r.isEmpty = true
    · rw [if_pos h1] at hp
      exact Or.inl hp
    · rw [if_neg h1] at hp
      by_cases h2 : truthyOpt (jget? r "error") = true
      · rw [if_pos h2] at hp
        cases hc : jget? r "CVE_ID" with
        | none => simp only [hc] at hp; exact Or.inl hp
        | some cid => simp only [hc] at hp; exact Or.inl hp
      · rw [if_neg h2] at hp
        cases hc : jget? r "CVE_ID" with
        | none => simp only [hc] at hp; exact Or.inl hp
        | some cid =>
          simp only [hc] at hp
          by_cases h3 : w cid = true
          · rw [if_pos h3] at hp
            rcases List.mem_append.mp hp with hl | hr
            · exact Or.inl hl
            · have hpe : p = (cid, r) := by simpa using hr
              exact Or.inr ⟨r, cid, rfl, hpe, Bool.eq_false_iff.mpr h2, hc, h3⟩
          · rw [if_neg h3] at hp
            exact Or.inl hp

theorem drain_written_inv (w : Json → Bool) :
    ∀ (outs : List Outcome) (st : OrchState),
      (∀ p ∈ st.written, truthyOpt (jget? p.2 "error") = false ∧
        jget? p.2 "CVE_ID" = some p.1 ∧ w p.1 = true) →
      ∀ p ∈ (outs.foldl (drainStep w) st).written,
        truthyOpt (jget? p.2 "error") = false ∧
        jget? p.2 "CVE_ID" = some p.1 ∧ w p.1 = true := by
  intro outs
  induction outs with
  | nil => intro st h p hp; exact h p hp
  | cons o rest ih =>
    intro st h p hp
    simp only [List.foldl_cons] at hp
    refine ih (drainStep w st o) ?_ p hp
    intro q hq
    rcases drainStep_written_cases w st o q hq with hql | ⟨r, cid, -, hqe, he, hcid, hw⟩
    · exact h q hql
    · subst hqe
      exact ⟨he, hcid, hw⟩

theorem drain_res_error_in_failed (w : Json → Bool) :
    ∀ (outs : List Outcome) (st : OrchState) (r : List (String × Json)) (cid : Json),
      Outcome.res r ∈ outs → truthyOpt (jget? r "error") = true →
      jget? r "CVE_ID" = some cid →
      cid ∈ (outs.foldl (drainStep w) st).failed := by
  intro outs
  induction outs with
  | nil => intro st r cid h _ _; exact absurd h (by simp)
  | cons o rest ih =>
    intro st r cid hmem herr hcid
    simp only [List.foldl_cons]
    rcases List.mem_cons.mp hmem with heq | hmem'
    · apply drain_failed_mono
      rw [← heq]
      simp only [drainStep]
      have hne : r.isEmpty = false := by
        cases r with
        | nil => simp [jget?] at hcid
        | cons hd tl => rfl
      simp only [hne, Bool.false_eq_true, if_false, herr, if_true, hcid]
      simp
    · exact ih (drainStep w st o) r cid hmem' herr hcid

theorem drain_failed_absent (w : Json → Bool) :
    ∀ (outs : List Outcome) (st : OrchState) (cid : Json),
      cid ∉ st.failed →
      (∀ r, Outcome.res r ∈ outs → jget? r "CVE_ID" = some cid →
        truthyOpt (jget? r "error") = false) →
      cid ∉ (outs.foldl (drainStep w) st).failed := by
  intro outs
  induction outs with
  | nil => intro st cid h _; exact h
  | cons o rest ih =>
    intro st cid h hall
    simp only [List.foldl_cons]
    refine ih (drainStep w st o) cid ?_ (fun r hr hc => hall r (List.mem_cons_of_mem _ hr) hc)
    cases o with
    | exn => exact h
    | skipped => exact h
    | res r =>
      simp only [drainStep]
      by_cases h1 : r.isEmpty = true
      · rw [if_pos h1]; exact h
      · rw [if_neg h1]
        by_cases h2 : truthyOpt (jget? r "error") = true
        · rw [if_pos h2]
          cases hc : jget? r "CVE_ID" with
          | none => simp only [hc]; exact h
          | some c =>
            simp only [hc]
            intro hmem
            rcases List.mem_append.mp hmem with hl | hr2
            · exact h hl
            · have hcc : cid = c := by simpa using hr2
              subst hcc
              have := hall r (List.mem_cons_self _ _) hc
              rw [this] at h2
              exact Bool.noConfusion h2
        · rw [if_neg h2]
          cases hc : jget? r "CVE_ID" with
          | none => simp only [hc]; exact h
          | some c =>
            simp only [hc]
            by_cases h3 : w c = true
            · rw [if_pos h3]; exact h
            · rw [if_neg h3]; exact h

theorem drain_failed_indep (w w2 : Json → Bool) :
    ∀ (outs : List Outcome) (st st2 : OrchState), st.failed = st2.failed →
      (outs.foldl (drainStep w) st).failed = (outs.foldl (drainStep w2) st2).failed := by
  intro outs
  induction outs with
  | nil => intro st st2 h; exact h
  | cons o rest ih =>
    intro st st2 h
    simp only [List.foldl_cons]
    apply ih
    cases o with
    | exn => exact h
    | skipped => exact h
    | res r =>
      simp only [drainStep]
      by_cases h1 : r.isEmpty = true
      · rw [if_pos h1, if_pos h1]; exact h
      · rw [if_neg h1, if_neg h1]
        by_cases h2 : truthyOpt (jget? r "error") = true
        · rw [if_pos h2, if_pos h2]
          cases hc : jget? r "CVE_ID" with
          | none => simp only [hc]; exact h
          | some c => simp only [hc]; rw [h]
        · rw [if_neg h2, if_neg h2]
          cases hc : jget? r "CVE_ID" with
          | none => simp only [hc]; exact h
          | some c =>
            simp only [hc]
            by_cases h3 : w c = true
            · rw [if_pos h3]
              by_cases h4 : w2 c = true
              · rw [if_pos h4]; exact h
              · rw [if_neg h4]; exact h
            · rw [if_neg h3]
              by_cases h4 : w2 c = true
              · rw [if_pos h4]; exact h
              · rw [if_neg h4]; exact h

/-- Claim C8: a result marked as an error is never recorded as a written
output file; its identifier is appended to the in memory failure list; and
the failure list file is produced, once, at the end of the drain, with the
accumulated identifiers in order, exactly when the list is non empty. -/
theorem error_result_never_written (w : Json → Bool) (outs : List Outcome) :
    (∀ p ∈ (drain w outs).written, truthyOpt (jget? p.2 "error") = false) ∧
    (∀ (r : List (String × Json)) (cid : Json), Outcome.res r ∈ outs →
      truthyOpt (jget? r "error") = true → jget? r "CVE_ID" = some cid →
      cid ∈ (drain w outs).failed) ∧
    ((failedLogFile (drain w outs)).isSome = true ↔ (drain w outs).failed ≠ []) ∧
    ((drain w outs).failed ≠ [] →
      failedLogFile (drain w outs) = some ((drain w outs).failed)) := by
  refine ⟨?_, ?_, ?_, ?_⟩
  · intro p hp
    exact (drain_written_inv w outs ⟨[], []⟩ (by simp) p hp).1
  · intro r cid hm he hc
    exact drain_res_error_in_failed w outs ⟨[], []⟩ r cid hm he hc
  · cases hF : (drain w outs).failed with
    | nil => simp [failedLogFile, hF]
    | cons a l => simp [failedLogFile, hF]
  · intro hne
    cases hF : (drain w outs).failed with
    | nil => exact absurd hF hne
    | cons a l => simp [failedLogFile, hF]

/-- An error shaped result used by the C8 witness drain. -/
def c8ErrRes : List (String × Json) := errResult (Json.s "CVE-F") 2 1

/-- Claim C8 witness: draining one error marked result appends its
identifier to the failure list, records no written file, and produces the
failure list file holding that identifier. -/
theorem error_result_never_written_witness :
    (Json.s "CVE-F") ∈ (drain (fun _ => true) [Outcome.res c8ErrRes]).failed ∧
    failedLogFile (drain (fun _ => true) [Outcome.res c8ErrRes]) =
      some ((drain (fun _ => true) [Outcome.res c8ErrRes]).failed) := by
  obtain ⟨-, h2, -, h4⟩ := error_result_never_written (fun _ => true) [Outcome.res c8ErrRes]
  refine ⟨h2 c8ErrRes (Json.s "CVE-F") (List.mem_cons_self _ _) rfl rfl, h4 ?_⟩
  intro hnil
  have hval : (drain (fun _ => true) [Outcome.res c8ErrRes]).failed = [Json.s "CVE-F"] := rfl
  rw [hval] at hnil
  exact List.noConfusion hnil

/-- Claim C10: when the write oracle rejects the output of a given
identifier and every completed result carrying that identifier is a success
result, the identifier ends up in no completely written output file and not
in the failure list; moreover the failure list of a drain never depends on
the write oracle at all, so persistence failures cannot change it. -/
theorem persistence_failure_is_silent (w w2 : Json → Bool) (outs : List Outcome)
    (cid : Json)
    (hall : ∀ r, Outcome.res r ∈ outs → jget? r "CVE_ID" = some cid →
      truthyOpt (jget? r "error") = false)
    (hw : w cid = false) :
    (∀ rr, (cid, rr) ∉ (drain w outs).written) ∧
    cid ∉ (drain w outs).failed ∧
    (drain w outs).failed = (drain w2 outs).failed := by
  refine ⟨?_, ?_, ?_⟩
  · intro rr hmem
    have hinv := (drain_written_inv w outs ⟨[], []⟩ (by simp) (cid, rr) hmem).2.2
    rw [hw] at hinv
    exact Bool.noConfusion hinv
  · exact drain_failed_absent w outs ⟨[], []⟩ cid (by simp) hall
  · exact drain_failed_indep w w2 outs ⟨[], []⟩ ⟨[], []⟩ rfl

/-- A success shaped result used by the C10 witness drain. -/
def c10SuccRes : List (String × Json) :=
  [("CVE_ID", Json.s "CVE-T"), ("Category", Json.s "RCE"),
   ("execution_time_seconds", Json.i 1), ("attempts", Json.i 1)]

/-- Claim C10 witness: draining one success result whose write fails leaves
the identifier absent from written files and from the failure list, and the
failure list matches the one of a drain whose writes all succeed. -/
theorem persistence_failure_is_silent_witness :
    (∀ rr, (Json.s "CVE-T", rr) ∉
      (drain (fun _ => false) [Outcome.res c10SuccRes]).written) ∧
    Json.s "CVE-T" ∉ (drain (fun _ => false) [Outcome.res c10SuccRes]).failed ∧
    (drain (fun _ => false) [Outcome.res c10SuccRes]).failed =
      (drain (fun _ => true) [Outcome.res c10SuccRes]).failed :=
  persistence_failure_is_silent (fun _ => false) (fun _ => true) [Outcome.res c10SuccRes]
    (Json.s "CVE-T")
    (fun r hr _ => by
      have hre : r = c10SuccRes := by simpa using hr
      subst hre
      rfl) rfl
